import Mathlib

/-!
# Verification of the card print-layout tool (`src/pdf.py`)

Shallow embedding of the layout arithmetic, the mirrored-edge bleed
synthesis, file discovery, directory-name configuration parsing, marker
emission and the page-generation loop of `src/pdf.py`, together with
theorems settling the specification claims.

Real-number quantities (millimetres, points) are modelled by exact
rationals `ℚ`; pixel coordinates by `ℕ`.  Pixel values are opaque
naturals.  The PDF canvas is modelled by the lists of drawing operations
the code emits.
-/

namespace CardPuncher

/-- Configuration scalars, mirroring the fields of `Config` in
`src/pdf.py` that the layout and marker code reads. -/
structure Config where
  card_width_mm : ℚ
  card_height_mm : ℚ
  bleed_mm : ℚ
  spacing_mm : ℚ
  grid_cols : ℕ
  grid_rows : ℕ
  marker_distance_mm : ℚ
deriving DecidableEq

/-- `placed_w` of `PDFGenerator.calculate_layout`:
`card_width_mm + 2 * bleed_mm`. -/
def placed_w (c : Config) : ℚ := c.card_width_mm + 2 * c.bleed_mm

/-- `placed_h` of `PDFGenerator.calculate_layout`:
`card_height_mm + 2 * bleed_mm`. -/
def placed_h (c : Config) : ℚ := c.card_height_mm + 2 * c.bleed_mm

/-- `grid_w` of `calculate_layout`:
`grid_cols * placed_w + (grid_cols - 1) * spacing_mm`. -/
def grid_w (c : Config) : ℚ :=
  c.grid_cols * placed_w c + ((c.grid_cols : ℚ) - 1) * c.spacing_mm

/-- `grid_h` of `calculate_layout`:
`grid_rows * placed_h + (grid_rows - 1) * spacing_mm`. -/
def grid_h (c : Config) : ℚ :=
  c.grid_rows * placed_h c + ((c.grid_rows : ℚ) - 1) * c.spacing_mm

/-- `center_x` of `calculate_layout`: `(page_w_mm - grid_w) / 2`.
The code converts this to points by a fixed positive factor before
storing it in `Layout.start_x`; all layout arithmetic here is kept in
millimetres, the unit the code computes in before that final scaling. -/
def center_x (c : Config) (page_w_mm : ℚ) : ℚ := (page_w_mm - grid_w c) / 2

/-- `center_y` of `calculate_layout`: `(page_h_mm - grid_h) / 2`. -/
def center_y (c : Config) (page_h_mm : ℚ) : ℚ := (page_h_mm - grid_h c) / 2

/-- The x page-coordinate of grid cell column `col`, as computed in
`PDFGenerator.generate_pdf`:
`x = layout.start_x + col * (layout.placed_width + spacing)`. -/
def cell_x (c : Config) (page_w_mm : ℚ) (col : ℕ) : ℚ :=
  center_x c page_w_mm + col * (placed_w c + c.spacing_mm)

/-- The y page-coordinate of grid cell row `row`, as computed in
`PDFGenerator.generate_pdf`:
`y = layout.start_y + (grid_rows - 1 - row) * (layout.placed_height + spacing)`. -/
def cell_y (c : Config) (page_h_mm : ℚ) (row : ℕ) : ℚ :=
  center_y c page_h_mm + ((c.grid_rows : ℚ) - 1 - row) * (placed_h c + c.spacing_mm)

/-!
## Raster-image model for `PDFGenerator.process_image`

A raster image is a width, a height and a pixel function; pixel values
are opaque naturals (the pixel function's values outside the bounds are
irrelevant, every statement below constrains in-bounds pixels only).
PIL coordinates: `(0, 0)` is the top-left corner, `y` grows downward.
-/

/-- A raster image. -/
structure Img where
  width : ℕ
  height : ℕ
  pix : ℕ → ℕ → ℕ

/-- `PIL.Image.crop((l, t, r, b))`: the axis-aligned sub-image with
size `(r - l) × (b - t)` whose pixel `(x, y)` is the source pixel
`(l + x, t + y)`. -/
def crop (im : Img) (l t r b : ℕ) : Img :=
  ⟨r - l, b - t, fun x y => im.pix (l + x) (t + y)⟩

/-- `transpose(Image.FLIP_LEFT_RIGHT)`: horizontal mirror. -/
def flipLR (im : Img) : Img :=
  ⟨im.width, im.height, fun x y => im.pix (im.width - 1 - x) y⟩

/-- `transpose(Image.FLIP_TOP_BOTTOM)`: vertical mirror. -/
def flipTB (im : Img) : Img :=
  ⟨im.width, im.height, fun x y => im.pix x (im.height - 1 - y)⟩

/-- `dst.paste(src, (px, py))`: pixels inside the pasted rectangle come
from `src`, all others keep their previous value. -/
def paste (dst src : Img) (px py : ℕ) : Img :=
  ⟨dst.width, dst.height, fun x y =>
    if px ≤ x ∧ x < px + src.width ∧ py ≤ y ∧ y < py + src.height then
      src.pix (x - px) (y - py)
    else
      dst.pix x y⟩

/-- `PIL.Image.new('RGB', (w, h))`: a black canvas. -/
def newRGB (w h : ℕ) : Img := ⟨w, h, fun _ _ => 0⟩

/-- The bleed-canvas construction of `PDFGenerator.process_image`,
transliterated paste by paste.  `card` is the resized card canvas
(`card_img` in the code, of size `card_w × card_h`); `card_w`,
`card_h`, `bleed_px` are the pixel dimensions the code computes from
the configuration.  Returns `bleed_img`. -/
def process_bleed (card : Img) (card_w card_h bleed_px : ℕ) : Img :=
  let bleed_w := card_w + 2 * bleed_px
  let bleed_h := card_h + 2 * bleed_px
  let b0 := newRGB bleed_w bleed_h
  -- Place main card image in center
  let b1 := paste b0 card bleed_px bleed_px
  -- Left edge
  let left_strip := crop card 0 0 bleed_px card_h
  let b2 := paste b1 (flipLR left_strip) 0 bleed_px
  -- Right edge
  let right_strip := crop card (card_w - bleed_px) 0 card_w card_h
  let b3 := paste b2 (flipLR right_strip) (bleed_px + card_w) bleed_px
  -- Top edge
  let top_strip := crop card 0 0 card_w bleed_px
  let b4 := paste b3 (flipTB top_strip) bleed_px 0
  -- Bottom edge
  let bottom_strip := crop card 0 (card_h - bleed_px) card_w card_h
  let b5 := paste b4 (flipTB bottom_strip) bleed_px (bleed_px + card_h)
  -- Top-left corner
  let tl_corner := crop card 0 0 bleed_px bleed_px
  let b6 := paste b5 (flipTB (flipLR tl_corner)) 0 0
  -- Top-right corner
  let tr_corner := crop card (card_w - bleed_px) 0 card_w bleed_px
  let b7 := paste b6 (flipTB (flipLR tr_corner)) (bleed_px + card_w) 0
  -- Bottom-left corner
  let bl_corner := crop card 0 (card_h - bleed_px) bleed_px card_h
  let b8 := paste b7 (flipTB (flipLR bl_corner)) 0 (bleed_px + card_h)
  -- Bottom-right corner
  let br_corner := crop card (card_w - bleed_px) (card_h - bleed_px) card_w card_h
  paste b8 (flipTB (flipLR br_corner)) (bleed_px + card_w) (bleed_px + card_h)

/-- The nine destination rectangles of the pastes in `process_image`,
in source order: positions are the paste offsets, sizes the crop sizes
exactly as written in the code
(index 0 = center card, 1 = left band, 2 = right band, 3 = top band,
4 = bottom band, 5/6/7/8 = top-left/top-right/bottom-left/bottom-right
corner cells). -/
structure Rect where
  px : ℕ
  py : ℕ
  w : ℕ
  h : ℕ

/-- Membership of pixel `(x, y)` in rectangle `r`. -/
def inRect (r : Rect) (x y : ℕ) : Prop :=
  r.px ≤ x ∧ x < r.px + r.w ∧ r.py ≤ y ∧ y < r.py + r.h

instance (r : Rect) (x y : ℕ) : Decidable (inRect r x y) := by
  unfold inRect; infer_instance

/-- Destination rectangle of the `i`-th paste of `process_image`
(see `Rect`). -/
def pasteRect (W H B : ℕ) : Fin 9 → Rect
  | ⟨0, _⟩ => ⟨B, B, W, H⟩
  | ⟨1, _⟩ => ⟨0, B, B, H⟩
  | ⟨2, _⟩ => ⟨B + W, B, W - (W - B), H⟩
  | ⟨3, _⟩ => ⟨B, 0, W, B⟩
  | ⟨4, _⟩ => ⟨B, B + H, W, H - (H - B)⟩
  | ⟨5, _⟩ => ⟨0, 0, B, B⟩
  | ⟨6, _⟩ => ⟨B + W, 0, W - (W - B), B⟩
  | ⟨7, _⟩ => ⟨0, B + H, B, H - (H - B)⟩
  | ⟨8, _⟩ => ⟨B + W, B + H, W - (W - B), H - (H - B)⟩
  | ⟨n + 9, h⟩ => absurd h (by omega)

/-- Pixels of the interior of the bleed canvas (the centered card
paste) equal the card canvas. -/
lemma process_bleed_interior (card : Img) (W H B : ℕ)
    (hcw : card.width = W) (hch : card.height = H)
    (x y : ℕ) (hx : x < W) (hy : y < H) :
    (process_bleed card W H B).pix (B + x) (B + y) = card.pix x y := by
  simp only [process_bleed, paste, crop, flipLR, flipTB, newRGB, hcw, hch]
  iterate 8 rw [if_neg (by omega)]
  rw [if_pos (by omega)]
  congr 1 <;> omega

/-- Left margin band: horizontal mirror of the card's left strip. -/
lemma process_bleed_left (card : Img) (W H B : ℕ)
    (hcw : card.width = W) (hch : card.height = H)
    (x y : ℕ) (hx : x < B) (hy : y < H) :
    (process_bleed card W H B).pix x (B + y) = card.pix (B - 1 - x) y := by
  simp only [process_bleed, paste, crop, flipLR, flipTB, newRGB, hcw, hch]
  iterate 7 rw [if_neg (by omega)]
  rw [if_pos (by omega)]
  congr 1 <;> omega

/-- Right margin band: horizontal mirror of the card's right strip. -/
lemma process_bleed_right (card : Img) (W H B : ℕ)
    (hcw : card.width = W) (hch : card.height = H) (hW : B ≤ W)
    (x y : ℕ) (hx : x < B) (hy : y < H) :
    (process_bleed card W H B).pix (B + W + x) (B + y) = card.pix (W - 1 - x) y := by
  simp only [process_bleed, paste, crop, flipLR, flipTB, newRGB, hcw, hch]
  iterate 6 rw [if_neg (by omega)]
  rw [if_pos (by omega)]
  congr 1 <;> omega

/-- Top margin band: vertical mirror of the card's top strip. -/
lemma process_bleed_top (card : Img) (W H B : ℕ)
    (hcw : card.width = W) (hch : card.height = H)
    (x y : ℕ) (hx : x < W) (hy : y < B) :
    (process_bleed card W H B).pix (B + x) y = card.pix x (B - 1 - y) := by
  simp only [process_bleed, paste, crop, flipLR, flipTB, newRGB, hcw, hch]
  iterate 5 rw [if_neg (by omega)]
  rw [if_pos (by omega)]
  congr 1 <;> omega

/-- Bottom margin band: vertical mirror of the card's bottom strip. -/
lemma process_bleed_bottom (card : Img) (W H B : ℕ)
    (hcw : card.width = W) (hch : card.height = H) (hH : B ≤ H)
    (x y : ℕ) (hx : x < W) (hy : y < B) :
    (process_bleed card W H B).pix (B + x) (B + H + y) = card.pix x (H - 1 - y) := by
  simp only [process_bleed, paste, crop, flipLR, flipTB, newRGB, hcw, hch]
  iterate 4 rw [if_neg (by omega)]
  rw [if_pos (by omega)]
  congr 1 <;> omega

/-- Top-left corner cell: point mirror of the card's top-left block. -/
lemma process_bleed_tl (card : Img) (W H B : ℕ)
    (hcw : card.width = W) (hch : card.height = H)
    (x y : ℕ) (hx : x < B) (hy : y < B) :
    (process_bleed card W H B).pix x y = card.pix (B - 1 - x) (B - 1 - y) := by
  simp only [process_bleed, paste, crop, flipLR, flipTB, newRGB, hcw, hch]
  iterate 3 rw [if_neg (by omega)]
  rw [if_pos (by omega)]
  congr 1 <;> omega

/-- Top-right corner cell: point mirror of the card's top-right block. -/
lemma process_bleed_tr (card : Img) (W H B : ℕ)
    (hcw : card.width = W) (hch : card.height = H) (hW : B ≤ W)
    (x y : ℕ) (hx : x < B) (hy : y < B) :
    (process_bleed card W H B).pix (B + W + x) y = card.pix (W - 1 - x) (B - 1 - y) := by
  simp only [process_bleed, paste, crop, flipLR, flipTB, newRGB, hcw, hch]
  iterate 2 rw [if_neg (by omega)]
  rw [if_pos (by omega)]
  congr 1 <;> omega

/-- Bottom-left corner cell: point mirror of the card's bottom-left
block. -/
lemma process_bleed_bl (card : Img) (W H B : ℕ)
    (hcw : card.width = W) (hch : card.height = H) (hH : B ≤ H)
    (x y : ℕ) (hx : x < B) (hy : y < B) :
    (process_bleed card W H B).pix x (B + H + y) = card.pix (B - 1 - x) (H - 1 - y) := by
  simp only [process_bleed, paste, crop, flipLR, flipTB, newRGB, hcw, hch]
  iterate 1 rw [if_neg (by omega)]
  rw [if_pos (by omega)]
  congr 1 <;> omega

/-- Bottom-right corner cell: point mirror of the card's bottom-right
block. -/
lemma process_bleed_br (card : Img) (W H B : ℕ)
    (hcw : card.width = W) (hch : card.height = H) (hW : B ≤ W) (hH : B ≤ H)
    (x y : ℕ) (hx : x < B) (hy : y < B) :
    (process_bleed card W H B).pix (B + W + x) (B + H + y) =
      card.pix (W - 1 - x) (H - 1 - y) := by
  simp only [process_bleed, paste, crop, flipLR, flipTB, newRGB, hcw, hch]
  rw [if_pos (by omega)]
  congr 1 <;> omega

/-- The concrete configuration of the spec's layout example:
`cols = 3, rows = 3, spacing = 0, cardW = cardH = 100, bleed = 0`. -/
def layoutExampleConfig : Config :=
  { card_width_mm := 100
    card_height_mm := 100
    bleed_mm := 0
    spacing_mm := 0
    grid_cols := 3
    grid_rows := 3
    marker_distance_mm := 10 }

/-- A concrete 4×4 card canvas used to instantiate theorems with
hypotheses; the pixel values are all distinct in the 4×4 square. -/
def testCard : Img := ⟨4, 4, fun x y => 10 * x + y⟩

/-!
## File discovery (`PDFGenerator.find_images`)

The directory is modelled by the list of its file names.  `find_images`
globs `*{ext}` and `*{ext.upper()}` for each supported extension, puts
the hits through `set` and `sorted`: modelled as filter, dedup, sort.
-/

/-- `Config.supported_extensions`. -/
def supported_extensions : List String := [".png", ".jpg", ".jpeg", ".tiff", ".webp"]

/-- Python `str.endswith` / the `*{ext}` glob on a file name, on
character lists. -/
def endsWithL (s suf : List Char) : Bool :=
  decide (List.drop (s.length - suf.length) s = suf)

/-- Whether `find_images` collects file `f`: the name ends with a
supported extension in lower case or in `ext.upper()` form (Python
`str.upper` is per-character on these ASCII extensions). -/
def ext_match (f : String) : Bool :=
  supported_extensions.any fun e =>
    endsWithL f.data e.data || endsWithL f.data (e.data.map Char.toUpper)

/-- Case-insensitive extension match as the spec words it ("a supported
extension (png/jpg/jpeg/tiff/webp, case-insensitive)"): lower-case the
name, compare with the lower-case extension. -/
def ci_ext_match (f : String) : Bool :=
  supported_extensions.any fun e => endsWithL (f.data.map Char.toLower) e.data

/-- `PDFGenerator.find_images`: `sorted(list(set(matches)))`. -/
def find_images (files : List String) : List String :=
  ((files.filter ext_match).dedup).mergeSort fun a b => decide (a ≤ b)

/-- A suffix match survives mapping the same character function over
both the name and the suffix. -/
lemma endsWithL_map (g : Char → Char) (s suf : List Char)
    (h : endsWithL s suf = true) : endsWithL (s.map g) (suf.map g) = true := by
  simp only [endsWithL, decide_eq_true_eq] at h ⊢
  rw [List.length_map, List.length_map, ← List.map_drop, h]

/-- The code's matcher only accepts names that match case-insensitively:
`ext_match f = true → ci_ext_match f = true`. -/
lemma ext_match_imp_ci (f : String) (h : ext_match f = true) :
    ci_ext_match f = true := by
  simp only [ext_match, List.any_eq_true, Bool.or_eq_true] at h
  obtain ⟨e, he, hcase⟩ := h
  simp only [ci_ext_match, List.any_eq_true]
  refine ⟨e, he, ?_⟩
  fin_cases he <;> rcases hcase with hlo | hup
  all_goals
    first
      | simpa using endsWithL_map Char.toLower _ _ hlo
      | simpa using endsWithL_map Char.toLower _ _ hup

/-!
## Directory-name configuration (`Config.from_directory_name`)

The regex `^b(\d+(?:\.\d+)?)_m(\d+(?:\.\d+)?)_(.+)$` and the float
conversion are modelled over character lists with exact rationals.
-/

/-- `Config.inch_to_mm = 25.4`. -/
def inch_to_mm : ℚ := 254 / 10

/-- A decimal number matched by `\d+(?:\.\d+)?`: the integer part, the
fractional digit block's value, and the fractional block's length. -/
structure ParsedNum where
  intPart : ℕ
  fracPart : ℕ
  fracLen : ℕ
deriving DecidableEq

/-- Value of a digit string (the integer part or the fractional digit
block of a matched number). -/
def digitsToNat (ds : List Char) : ℕ :=
  ds.foldl (fun n c => 10 * n + (c.toNat - 48)) 0

/-- The exact rational value Python's `float()` conversion denotes for
a matched decimal string. -/
def numValue (p : ParsedNum) : ℚ :=
  (p.intPart : ℚ) + (p.fracPart : ℚ) / (10 : ℚ) ^ p.fracLen

/-- Parse `\d+(?:\.\d+)?` at the head of `s`; return the matched number
and the unconsumed rest, or `none` when the regex cannot match here (no
leading digit, or a dot not followed by a digit — the regex as a whole
fails then, since the next pattern character `_` can never match a
dot). -/
def parseNumber (s : List Char) : Option (ParsedNum × List Char) :=
  let ds := s.takeWhile Char.isDigit
  let rest := s.dropWhile Char.isDigit
  if ds.isEmpty then none
  else
    match rest with
    | '.' :: r2 =>
        let fs := r2.takeWhile Char.isDigit
        let r3 := r2.dropWhile Char.isDigit
        if fs.isEmpty then none
        else some (⟨digitsToNat ds, digitsToNat fs, fs.length⟩, r3)
    | _ => some (⟨digitsToNat ds, 0, 0⟩, rest)

/-- Match `^b(\d+(?:\.\d+)?)_m(\d+(?:\.\d+)?)_(.+)$` against a folder
name; return the two numeric groups on success. -/
def parse_bm (s : List Char) : Option (ParsedNum × ParsedNum) :=
  match s with
  | 'b' :: r1 =>
      match parseNumber r1 with
      | some (bv, r2) =>
          match r2 with
          | '_' :: 'm' :: r3 =>
              match parseNumber r3 with
              | some (mv, r4) =>
                  match r4 with
                  | '_' :: rest => if rest.isEmpty then none else some (bv, mv)
                  | _ => none
              | none => none
          | _ => none
      | none => none
  | _ => none

/-- `Config.from_directory_name`, reduced to the two fields it can
change: given the defaults (or overrides) for `bleed_mm` and
`margin_mm` and the folder's base name, return the resulting
`(bleed_mm, margin_mm)`.  Note the code branches on `bleed_val < 1.0`
alone and applies the chosen unit to both values. -/
def from_directory_name (default_bleed default_margin : ℚ)
    (folder_name : String) : ℚ × ℚ :=
  match parse_bm folder_name.data with
  | none => (default_bleed, default_margin)
  | some (b, m) =>
      let bleed_val := numValue b
      let margin_val := numValue m
      if bleed_val < 1 then
        (bleed_val * inch_to_mm, margin_val * inch_to_mm)
      else
        (bleed_val, margin_val)

/-!
## Guide markers (`PDFGenerator.draw_guides`)

Marker positions are kept in millimetres; the code works in points,
which is the same arithmetic multiplied through by the fixed positive
factor `72 / 25.4`, so every comparison below is equivalent to the
code's.
-/

/-- An alignment-marker crosshair: its centre and its side
(`left = true` for the magenta left-of-cell marker, `false` for the
green right-of-cell marker). -/
structure Marker where
  x : ℚ
  y : ℚ
  left : Bool
deriving DecidableEq

/-- `card_y` of the `draw_guides` marker loop:
`start_y + row * (placed_height + spacing)` (this loop uses the raw
`row`, unlike the card-placement loop's `rows - 1 - row`). -/
def guide_cell_y (c : Config) (ph : ℚ) (row : ℕ) : ℚ :=
  center_y c ph + row * (placed_h c + c.spacing_mm)

/-- The markers the `draw_guides` loop body emits for grid cell
`(row, col)`. -/
def cell_markers (c : Config) (pw ph : ℚ) (row col : ℕ) : List Marker :=
  let card_x := cell_x c pw col
  let card_y := guide_cell_y c ph row
  let left_x := card_x - c.marker_distance_mm
  let right_x := card_x + placed_w c + c.marker_distance_mm
  let top_y := card_y + placed_h c
  let bottom_y := card_y
  (if 0 < left_x then [⟨left_x, top_y, true⟩, ⟨left_x, bottom_y, true⟩] else []) ++
  (if right_x < pw then [⟨right_x, top_y, false⟩, ⟨right_x, bottom_y, false⟩] else [])

/-- All alignment markers `draw_guides` emits on one page. -/
def draw_markers (c : Config) (pw ph : ℚ) : List Marker :=
  (List.range c.grid_rows).flatMap fun row =>
    (List.range c.grid_cols).flatMap fun col => cell_markers c pw ph row col

/-!
## Page generation (`PDFGenerator.generate_pdf` and `main`)

A page is modelled by the list of grid cells `(row, col)` on which a
card was drawn; decoding success of `process_image` is abstracted by a
`decode : String → Bool` oracle (the code's `try/except` returns `None`
exactly when decoding fails, and the caller draws nothing then).
`generate_pdf` raises before the output canvas is created when no
image is found, so an `.error` result models "no output file written".
-/

/-- The one error `generate_pdf` raises itself
(`FileNotFoundError("No supported images found in ...")`). -/
inductive GenError where
  | noImages
deriving DecidableEq

/-- `cards_per_page = grid_cols * grid_rows`. -/
def cards_per_page (c : Config) : ℕ := c.grid_cols * c.grid_rows

/-- `pages = (len(images) + cards_per_page - 1) // cards_per_page`. -/
def num_pages (c : Config) (n : ℕ) : ℕ :=
  (n + cards_per_page c - 1) / cards_per_page c

/-- The cells drawn on one page: the `enumerate` loop over the page's
image batch, starting at slot `i`; `divmod(i, grid_cols)` gives the
cell, and a cell is drawn exactly when the image decodes. -/
def page_cells (c : Config) (decode : String → Bool) :
    ℕ → List String → List (ℕ × ℕ)
  | _, [] => []
  | i, p :: ps =>
      (if decode p then [(i / c.grid_cols, i % c.grid_cols)] else []) ++
      page_cells c decode (i + 1) ps

/-- `PDFGenerator.generate_pdf`: discover images, fail when none,
otherwise emit one front page per batch of `cards_per_page` images. -/
def generate_pdf (c : Config) (decode : String → Bool)
    (files : List String) : Except GenError (List (List (ℕ × ℕ))) :=
  let images := find_images files
  if images.isEmpty then .error .noImages
  else
    .ok ((List.range (num_pages c images.length)).map fun page =>
      page_cells c decode 0
        ((images.drop (page * cards_per_page c)).take (cards_per_page c)))

/-- The process exit code of `main`: 0 on success, 1 when
`generate_pdf` raises. -/
def main_exit_code (c : Config) (decode : String → Bool)
    (files : List String) : ℕ :=
  match generate_pdf c decode files with
  | .ok _ => 0
  | .error _ => 1

/-- C1, counterexample to the claim's concrete instance: with
`cols = rows = 3`, `spacing = 0`, `cardW = cardH = 100`, `bleed = 0`,
`pageWidth = pageHeight = 1000`, the code's cell formulas give cell
`(0,0)` the origin `(350, 550)` — not `(350, 650)` as claimed — and
cell `(2,2)` the origin `(550, 350)` — not `(650, 350)`. -/
theorem C1_layout_example_counterexample :
    cell_y layoutExampleConfig 1000 0 = 550 ∧
    ¬ cell_y layoutExampleConfig 1000 0 = 650 ∧
    cell_x layoutExampleConfig 1000 2 = 550 ∧
    ¬ cell_x layoutExampleConfig 1000 2 = 650 := by
  norm_num [cell_x, cell_y, center_x, center_y, grid_w, grid_h,
    placed_w, placed_h, layoutExampleConfig]

/-- C1 (amended): the layout satisfies
`placedW = cardW + 2·bleed`, `gridW = cols·placedW + (cols-1)·spacing`
(likewise heights), `startX = (pageW - gridW)/2`,
`startY = (pageH - gridH)/2` with no clamping, and cell `(row, col)`
has origin `x = startX + col·(placedW + spacing)`,
`y = startY + (rows-1-row)·(placedH + spacing)`; for the example
configuration (`cols = rows = 3`, `spacing = 0`, `cardW = cardH = 100`,
`bleed = 0`, page `1000 × 1000`) this gives `startX = startY = 350`,
cell `(0,0)` origin `(350, 550)` and cell `(2,2)` origin `(550, 350)`. -/
theorem C1_layout_formulas (c : Config) (pw ph : ℚ) (row col : ℕ) :
    placed_w c = c.card_width_mm + 2 * c.bleed_mm ∧
    placed_h c = c.card_height_mm + 2 * c.bleed_mm ∧
    grid_w c = c.grid_cols * placed_w c + ((c.grid_cols : ℚ) - 1) * c.spacing_mm ∧
    grid_h c = c.grid_rows * placed_h c + ((c.grid_rows : ℚ) - 1) * c.spacing_mm ∧
    center_x c pw = (pw - grid_w c) / 2 ∧
    center_y c ph = (ph - grid_h c) / 2 ∧
    cell_x c pw col = center_x c pw + col * (placed_w c + c.spacing_mm) ∧
    cell_y c ph row = center_y c ph + ((c.grid_rows : ℚ) - 1 - row) * (placed_h c + c.spacing_mm) ∧
    center_x layoutExampleConfig 1000 = 350 ∧
    center_y layoutExampleConfig 1000 = 350 ∧
    cell_x layoutExampleConfig 1000 0 = 350 ∧
    cell_y layoutExampleConfig 1000 0 = 550 ∧
    cell_x layoutExampleConfig 1000 2 = 550 ∧
    cell_y layoutExampleConfig 1000 2 = 350 := by
  refine ⟨rfl, rfl, rfl, rfl, rfl, rfl, rfl, rfl, ?_, ?_, ?_, ?_, ?_, ?_⟩ <;>
    norm_num [cell_x, cell_y, center_x, center_y, grid_w, grid_h,
      placed_w, placed_h, layoutExampleConfig]

/-- C2: for every card canvas and every `bleedPx > 0`, the bleed canvas
has size `(cardW + 2·bleedPx) × (cardH + 2·bleedPx)` and its interior
region (offset `bleedPx` in from every edge, sized `cardW × cardH`) is
pixel-identical to the card canvas. -/
theorem C2_bleed_size_and_interior (card : Img) (W H B : ℕ)
    (hcw : card.width = W) (hch : card.height = H) (hB : 0 < B) :
    (process_bleed card W H B).width = W + 2 * B ∧
    (process_bleed card W H B).height = H + 2 * B ∧
    ∀ x y, x < W → y < H →
      (process_bleed card W H B).pix (B + x) (B + y) = card.pix x y :=
  ⟨rfl, rfl, fun x y hx hy => process_bleed_interior card W H B hcw hch x y hx hy⟩

/-- Witness for C2 at the concrete 4×4 card and `bleedPx = 2`. -/
theorem C2_bleed_size_and_interior_witness :
    (process_bleed testCard 4 4 2).width = 4 + 2 * 2 ∧
    (process_bleed testCard 4 4 2).pix (2 + 1) (2 + 3) = testCard.pix 1 3 :=
  ⟨(C2_bleed_size_and_interior testCard 4 4 2 rfl rfl (by norm_num)).1,
   (C2_bleed_size_and_interior testCard 4 4 2 rfl rfl (by norm_num)).2.2
     1 3 (by norm_num) (by norm_num)⟩

/-- C3: each outer edge band of the bleed canvas is the adjacent card
strip flipped across the axis perpendicular to that edge, each corner
cell is the corresponding card corner block flipped across both axes
(180° point mirror), and consequently the 1-pixel lines immediately
outside the card boundary equal those immediately inside it. -/
theorem C3_mirrored_bands_and_corners (card : Img) (W H B : ℕ)
    (hcw : card.width = W) (hch : card.height = H)
    (hW : B ≤ W) (hH : B ≤ H) (hB : 0 < B) :
    (∀ x y, x < B → y < H →
      (process_bleed card W H B).pix x (B + y) = card.pix (B - 1 - x) y) ∧
    (∀ x y, x < B → y < H →
      (process_bleed card W H B).pix (B + W + x) (B + y) = card.pix (W - 1 - x) y) ∧
    (∀ x y, x < W → y < B →
      (process_bleed card W H B).pix (B + x) y = card.pix x (B - 1 - y)) ∧
    (∀ x y, x < W → y < B →
      (process_bleed card W H B).pix (B + x) (B + H + y) = card.pix x (H - 1 - y)) ∧
    (∀ x y, x < B → y < B →
      (process_bleed card W H B).pix x y = card.pix (B - 1 - x) (B - 1 - y)) ∧
    (∀ x y, x < B → y < B →
      (process_bleed card W H B).pix (B + W + x) y = card.pix (W - 1 - x) (B - 1 - y)) ∧
    (∀ x y, x < B → y < B →
      (process_bleed card W H B).pix x (B + H + y) = card.pix (B - 1 - x) (H - 1 - y)) ∧
    (∀ x y, x < B → y < B →
      (process_bleed card W H B).pix (B + W + x) (B + H + y) =
        card.pix (W - 1 - x) (H - 1 - y)) ∧
    (∀ y, y < H →
      (process_bleed card W H B).pix (B - 1) (B + y) =
        (process_bleed card W H B).pix B (B + y)) ∧
    (∀ y, y < H →
      (process_bleed card W H B).pix (B + W) (B + y) =
        (process_bleed card W H B).pix (B + W - 1) (B + y)) ∧
    (∀ x, x < W →
      (process_bleed card W H B).pix (B + x) (B - 1) =
        (process_bleed card W H B).pix (B + x) B) ∧
    (∀ x, x < W →
      (process_bleed card W H B).pix (B + x) (B + H) =
        (process_bleed card W H B).pix (B + x) (B + H - 1)) := by
  refine ⟨fun x y hx hy => process_bleed_left card W H B hcw hch x y hx hy,
    fun x y hx hy => process_bleed_right card W H B hcw hch hW x y hx hy,
    fun x y hx hy => process_bleed_top card W H B hcw hch x y hx hy,
    fun x y hx hy => process_bleed_bottom card W H B hcw hch hH x y hx hy,
    fun x y hx hy => process_bleed_tl card W H B hcw hch x y hx hy,
    fun x y hx hy => process_bleed_tr card W H B hcw hch hW x y hx hy,
    fun x y hx hy => process_bleed_bl card W H B hcw hch hH x y hx hy,
    fun x y hx hy => process_bleed_br card W H B hcw hch hW hH x y hx hy,
    ?_, ?_, ?_, ?_⟩
  · intro y hy
    have h1 := process_bleed_left card W H B hcw hch (B - 1) y (by omega) hy
    have h2 := process_bleed_interior card W H B hcw hch 0 y (by omega) hy
    rw [Nat.add_zero] at h2
    rw [h1, h2, Nat.sub_self]
  · intro y hy
    have h1 := process_bleed_right card W H B hcw hch hW 0 y (by omega) hy
    have h2 := process_bleed_interior card W H B hcw hch (W - 1) y (by omega) hy
    rw [Nat.add_zero, Nat.sub_zero] at h1
    rw [show B + (W - 1) = B + W - 1 by omega] at h2
    rw [h1, h2]
  · intro x hx
    have h1 := process_bleed_top card W H B hcw hch x (B - 1) hx (by omega)
    have h2 := process_bleed_interior card W H B hcw hch x 0 hx (by omega)
    rw [Nat.add_zero] at h2
    rw [h1, h2, Nat.sub_self]
  · intro x hx
    have h1 := process_bleed_bottom card W H B hcw hch hH x 0 hx (by omega)
    have h2 := process_bleed_interior card W H B hcw hch x (H - 1) hx (by omega)
    rw [Nat.add_zero, Nat.sub_zero] at h1
    rw [show B + (H - 1) = B + H - 1 by omega] at h2
    rw [h1, h2]

/-- Witness for C3 at the concrete 4×4 card and `bleedPx = 2`:
a left-band pixel, a bottom-right corner pixel, and the left mirror
continuity line at `y = 1`. -/
theorem C3_mirrored_bands_and_corners_witness :
    (process_bleed testCard 4 4 2).pix 0 (2 + 1) = testCard.pix (2 - 1 - 0) 1 ∧
    (process_bleed testCard 4 4 2).pix (2 + 4 + 1) (2 + 4 + 1) =
      testCard.pix (4 - 1 - 1) (4 - 1 - 1) ∧
    (process_bleed testCard 4 4 2).pix (2 - 1) (2 + 1) =
      (process_bleed testCard 4 4 2).pix 2 (2 + 1) := by
  have h := C3_mirrored_bands_and_corners testCard 4 4 2 rfl rfl
    (by norm_num) (by norm_num) (by norm_num)
  exact ⟨h.1 0 1 (by norm_num) (by norm_num),
    h.2.2.2.2.2.2.2.1 1 1 (by norm_num) (by norm_num),
    h.2.2.2.2.2.2.2.2.1 1 (by norm_num)⟩

/-- C4: the nine paste destination rectangles of the bleed-canvas
construction are pairwise disjoint and together cover the whole bleed
canvas, so every destination pixel is written exactly once and no paste
overwrites a pixel written by an earlier paste. -/
theorem C4_paste_regions_partition (W H B : ℕ) (hW : B ≤ W) (hH : B ≤ H) :
    (∀ x y, x < W + 2 * B → y < H + 2 * B →
      ∃ i : Fin 9, inRect (pasteRect W H B i) x y) ∧
    (∀ i j : Fin 9, i ≠ j → ∀ x y,
      inRect (pasteRect W H B i) x y → inRect (pasteRect W H B j) x y → False) := by
  constructor
  · intro x y hx hy
    rcases Nat.lt_or_ge x B with h1 | h1
    · rcases Nat.lt_or_ge y B with h2 | h2
      · exact ⟨⟨5, by omega⟩, by simp only [pasteRect, inRect]; omega⟩
      · rcases Nat.lt_or_ge y (B + H) with h3 | h3
        · exact ⟨⟨1, by omega⟩, by simp only [pasteRect, inRect]; omega⟩
        · exact ⟨⟨7, by omega⟩, by simp only [pasteRect, inRect]; omega⟩
    · rcases Nat.lt_or_ge x (B + W) with h1' | h1'
      · rcases Nat.lt_or_ge y B with h2 | h2
        · exact ⟨⟨3, by omega⟩, by simp only [pasteRect, inRect]; omega⟩
        · rcases Nat.lt_or_ge y (B + H) with h3 | h3
          · exact ⟨⟨0, by omega⟩, by simp only [pasteRect, inRect]; omega⟩
          · exact ⟨⟨4, by omega⟩, by simp only [pasteRect, inRect]; omega⟩
      · rcases Nat.lt_or_ge y B with h2 | h2
        · exact ⟨⟨6, by omega⟩, by simp only [pasteRect, inRect]; omega⟩
        · rcases Nat.lt_or_ge y (B + H) with h3 | h3
          · exact ⟨⟨2, by omega⟩, by simp only [pasteRect, inRect]; omega⟩
          · exact ⟨⟨8, by omega⟩, by simp only [pasteRect, inRect]; omega⟩
  · intro i j hij x y hi hj
    fin_cases i <;> fin_cases j <;>
      simp only [pasteRect, inRect, ne_eq, Fin.mk.injEq] at hij hi hj <;>
      first | exact hij trivial | omega

/-- Witness for C4 at `cardW = cardH = 4`, `bleedPx = 2`: the pixel
`(1, 1)` lies in some paste rectangle, and no pixel lies in two
distinct ones. -/
theorem C4_paste_regions_partition_witness :
    (∃ i : Fin 9, inRect (pasteRect 4 4 2 i) 1 1) ∧
    ¬ (inRect (pasteRect 4 4 2 ⟨0, by omega⟩) 3 3 ∧
       inRect (pasteRect 4 4 2 ⟨5, by omega⟩) 3 3) := by
  have h := C4_paste_regions_partition 4 4 2 (by norm_num) (by norm_num)
  exact ⟨h.1 1 1 (by norm_num) (by norm_num),
    fun hc => h.2 ⟨0, by omega⟩ ⟨5, by omega⟩ (by decide) 3 3 hc.1 hc.2⟩

/-- A configuration whose grid is taller than the page: one 10×200 mm
card on a 100×100 page, no bleed, marker distance 10.  Its bottom
markers land below the page yet are emitted. -/
def markerExampleConfig : Config :=
  { card_width_mm := 10
    card_height_mm := 200
    bleed_mm := 0
    spacing_mm := 0
    grid_cols := 1
    grid_rows := 1
    marker_distance_mm := 10 }

/-- C5, counterexample: on `markerExampleConfig` with a 100×100 page,
the left marker `(35, -50)` is emitted (its `left_x = 35 > 0` passes
the code's only check) although its y-coordinate `-50` lies outside
the page bounds — refuting "emitted iff the position falls within the
page bounds". -/
theorem C5_markers_counterexample :
    (⟨35, -50, true⟩ : Marker) ∈ draw_markers markerExampleConfig 100 100 ∧
    (⟨35, -50, true⟩ : Marker).y < 0 := by
  constructor
  · norm_num [draw_markers, cell_markers, cell_x, guide_cell_y, center_x,
      center_y, grid_w, grid_h, placed_w, placed_h, markerExampleConfig]
  · norm_num

/-- C5 (amended): markers sit at the fixed offset `marker_distance_mm`
outward of each cell's left and right edges, at the cell's top and
bottom; the left (magenta) pair of a cell is emitted iff its
`left_x > 0`, the right (green) pair iff its `right_x < pageWidth`;
the y-coordinate and the opposite x-bound are never checked. -/
theorem C5_markers_emission (c : Config) (pw ph : ℚ) :
    (∀ m ∈ draw_markers c pw ph,
      (m.left = true → 0 < m.x) ∧ (m.left = false → m.x < pw)) ∧
    (∀ row col, row < c.grid_rows → col < c.grid_cols →
      (0 < cell_x c pw col - c.marker_distance_mm →
        ((⟨cell_x c pw col - c.marker_distance_mm,
           guide_cell_y c ph row + placed_h c, true⟩ : Marker) ∈ draw_markers c pw ph ∧
         (⟨cell_x c pw col - c.marker_distance_mm,
           guide_cell_y c ph row, true⟩ : Marker) ∈ draw_markers c pw ph)) ∧
      (cell_x c pw col + placed_w c + c.marker_distance_mm < pw →
        ((⟨cell_x c pw col + placed_w c + c.marker_distance_mm,
           guide_cell_y c ph row + placed_h c, false⟩ : Marker) ∈ draw_markers c pw ph ∧
         (⟨cell_x c pw col + placed_w c + c.marker_distance_mm,
           guide_cell_y c ph row, false⟩ : Marker) ∈ draw_markers c pw ph))) := by
  constructor
  · intro m hm
    simp only [draw_markers, List.mem_flatMap, List.mem_range] at hm
    obtain ⟨row, hrow, col, hcol, hmc⟩ := hm
    simp only [cell_markers] at hmc
    rcases List.mem_append.mp hmc with h | h
    · by_cases hc : 0 < cell_x c pw col - c.marker_distance_mm
      · rw [if_pos hc] at h
        simp only [List.mem_cons, List.not_mem_nil, or_false] at h
        rcases h with rfl | rfl <;>
          exact ⟨fun _ => hc, fun hfalse => by simp at hfalse⟩
      · rw [if_neg hc] at h
        simp at h
    · by_cases hc : cell_x c pw col + placed_w c + c.marker_distance_mm < pw
      · rw [if_pos hc] at h
        simp only [List.mem_cons, List.not_mem_nil, or_false] at h
        rcases h with rfl | rfl <;>
          exact ⟨fun hfalse => by simp at hfalse, fun _ => hc⟩
      · rw [if_neg hc] at h
        simp at h
  · intro row col hrow hcol
    constructor
    · intro hlx
      constructor <;>
      · simp only [draw_markers, List.mem_flatMap, List.mem_range]
        refine ⟨row, hrow, col, hcol, ?_⟩
        simp only [cell_markers]
        refine List.mem_append.mpr (Or.inl ?_)
        rw [if_pos hlx]
        simp
    · intro hrx
      constructor <;>
      · simp only [draw_markers, List.mem_flatMap, List.mem_range]
        refine ⟨row, hrow, col, hcol, ?_⟩
        simp only [cell_markers]
        refine List.mem_append.mpr (Or.inr ?_)
        rw [if_pos hrx]
        simp

/-- Witness for C5 (amended) on a 10×10 mm card, 1×1 grid, 100×100
page: `left_x = 35 > 0` and `right_x = 65 < 100`, so all four of the
cell's markers are emitted, and the soundness half applies to one of
them. -/
theorem C5_markers_emission_witness :
    ((⟨cell_x ⟨10, 10, 0, 0, 1, 1, 10⟩ 100 0 - (10 : ℚ),
       guide_cell_y ⟨10, 10, 0, 0, 1, 1, 10⟩ 100 0, true⟩ : Marker) ∈
      draw_markers ⟨10, 10, 0, 0, 1, 1, 10⟩ 100 100) ∧
    (0 : ℚ) <
      (⟨cell_x ⟨10, 10, 0, 0, 1, 1, 10⟩ 100 0 - (10 : ℚ),
        guide_cell_y ⟨10, 10, 0, 0, 1, 1, 10⟩ 100 0, true⟩ : Marker).x := by
  have h := C5_markers_emission ⟨10, 10, 0, 0, 1, 1, 10⟩ 100 100
  have hlx : (0 : ℚ) < cell_x ⟨10, 10, 0, 0, 1, 1, 10⟩ 100 0 - (10 : ℚ) := by
    norm_num [cell_x, center_x, grid_w, placed_w]
  have hmem := ((h.2 0 0 (by norm_num) (by norm_num)).1 hlx).2
  exact ⟨hmem, (h.1 _ hmem).1 rfl⟩

/-- C7, counterexample: the folder name `b0.5_m2_mydeck` decodes to
margin `50.8` mm (the code picks the unit from the bleed value alone
and multiplies both by 25.4), while the claim's per-value rule says the
margin `2 ≥ 1.0` should stay `2` mm. -/
theorem C7_directory_name_counterexample :
    from_directory_name (3.175) 0 "b0.5_m2_mydeck" = (127 / 10, 254 / 5) ∧
    (from_directory_name (3.175) 0 "b0.5_m2_mydeck").2 ≠ 2 := by
  have h : from_directory_name (3.175) 0 "b0.5_m2_mydeck" = (127 / 10, 254 / 5) := by
    rw [from_directory_name,
      show parse_bm ("b0.5_m2_mydeck" : String).data = some (⟨0, 5, 1⟩, ⟨2, 0, 0⟩)
        by decide]
    norm_num [numValue, inch_to_mm]
  refine ⟨h, ?_⟩
  rw [h]
  norm_num

/-- C7 (amended): when the folder name matches
`b{bleed}_m{margin}_{name}`, the unit is chosen from the bleed value
alone — if `bleed < 1.0`, both values are inches and multiplied by
25.4, otherwise both are millimetres; a non-matching name leaves the
defaults unchanged; `b0.5_m0.25_mydeck` decodes to bleed 12.7 mm and
margin 6.35 mm, `b2_m1_mydeck` to bleed 2 mm and margin 1 mm. -/
theorem C7_from_directory_name (db dm : ℚ) (name : String) :
    (parse_bm name.data = none → from_directory_name db dm name = (db, dm)) ∧
    (∀ b m, parse_bm name.data = some (b, m) →
      from_directory_name db dm name =
        if numValue b < 1 then (numValue b * inch_to_mm, numValue m * inch_to_mm)
        else (numValue b, numValue m)) ∧
    from_directory_name db dm "b0.5_m0.25_mydeck" = (127 / 10, 127 / 20) ∧
    from_directory_name db dm "b2_m1_mydeck" = (2, 1) := by
  refine ⟨fun h => by simp only [from_directory_name, h],
    fun b m h => by simp only [from_directory_name, h], ?_, ?_⟩
  · rw [from_directory_name,
      show parse_bm ("b0.5_m0.25_mydeck" : String).data = some (⟨0, 5, 1⟩, ⟨0, 25, 2⟩)
        by decide]
    norm_num [numValue, inch_to_mm]
  · rw [from_directory_name,
      show parse_bm ("b2_m1_mydeck" : String).data = some (⟨2, 0, 0⟩, ⟨1, 0, 0⟩)
        by decide]
    norm_num [numValue, inch_to_mm]

/-- Witness for C7 (amended): the no-match branch at `mydeck` and the
match branch at `b2_m1_mydeck`. -/
theorem C7_from_directory_name_witness :
    from_directory_name (3.175) 0 "mydeck" = (3.175, 0) ∧
    from_directory_name (3.175) 0 "b2_m1_mydeck" =
      (if numValue ⟨2, 0, 0⟩ < 1 then
        (numValue ⟨2, 0, 0⟩ * inch_to_mm, numValue ⟨1, 0, 0⟩ * inch_to_mm)
      else (numValue ⟨2, 0, 0⟩, numValue ⟨1, 0, 0⟩)) :=
  ⟨(C7_from_directory_name (3.175) 0 "mydeck").1 (by decide),
   (C7_from_directory_name (3.175) 0 "b2_m1_mydeck").2.1 ⟨2, 0, 0⟩ ⟨1, 0, 0⟩ (by decide)⟩

/-!
## Helper lemmas for the page-generation theorems
-/

/-- When every image fails to decode, a page draws no cells. -/
lemma page_cells_all_fail (c : Config) (ps : List String) :
    ∀ i, page_cells c (fun _ => false) i ps = [] := by
  induction ps with
  | nil => intro i; rfl
  | cons p ps ih => intro i; simp [page_cells, ih]

/-- Membership characterization of the cells drawn by the `enumerate`
loop: cell `(r, q)` is drawn iff some slot `j` of the batch decodes and
`divmod(i + j, grid_cols) = (r, q)`. -/
lemma page_cells_mem (c : Config) (decode : String → Bool) (ps : List String) :
    ∀ (i r q : ℕ),
      ((r, q) ∈ page_cells c decode i ps ↔
        ∃ j, ∃ hj : j < ps.length, decode (ps.get ⟨j, hj⟩) = true ∧
          r = (i + j) / c.grid_cols ∧ q = (i + j) % c.grid_cols) := by
  induction ps with
  | nil => intro i r q; simp [page_cells]
  | cons p ps ih =>
    intro i r q
    simp only [page_cells, List.mem_append]
    constructor
    · rintro (h | h)
      · by_cases hd : decode p
        · rw [if_pos hd] at h
          simp only [List.mem_cons, List.not_mem_nil, or_false, Prod.mk.injEq] at h
          refine ⟨0, by simp, by simpa using hd, ?_, ?_⟩
          · rw [Nat.add_zero]; exact h.1
          · rw [Nat.add_zero]; exact h.2
        · rw [if_neg hd] at h
          exact absurd h (List.not_mem_nil _)
      · obtain ⟨j, hj, hdec, hr, hq⟩ := (ih (i + 1) r q).mp h
        refine ⟨j + 1, by simpa using Nat.succ_lt_succ hj, ?_, ?_, ?_⟩
        · simpa using hdec
        · rw [show i + (j + 1) = i + 1 + j by omega]; exact hr
        · rw [show i + (j + 1) = i + 1 + j by omega]; exact hq
    · rintro ⟨j, hj, hdec, hr, hq⟩
      cases j with
      | zero =>
        left
        rw [Nat.add_zero] at hr hq
        rw [if_pos (by simpa using hdec)]
        simp [hr, hq]
      | succ j =>
        right
        refine (ih (i + 1) r q).mpr ⟨j, by simpa using hj, by simpa using hdec, ?_, ?_⟩
        · rw [show i + 1 + j = i + (j + 1) by omega]; exact hr
        · rw [show i + 1 + j = i + (j + 1) by omega]; exact hq

/-- `generate_pdf` on an empty discovery result raises before any page
(or the output canvas) is built. -/
lemma generate_pdf_of_empty (c : Config) (decode : String → Bool)
    (files : List String) (h : find_images files = []) :
    generate_pdf c decode files = .error .noImages := by
  simp [generate_pdf, h]

/-- `generate_pdf` on a non-empty discovery result: the emitted pages,
spelled out. -/
lemma generate_pdf_of_ne (c : Config) (decode : String → Bool)
    (files : List String) (h : find_images files ≠ []) :
    generate_pdf c decode files =
      .ok ((List.range (num_pages c (find_images files).length)).map fun page =>
        page_cells c decode 0
          (((find_images files).drop (page * cards_per_page c)).take (cards_per_page c))) := by
  have hF : (find_images files).isEmpty = false := by
    cases hh : find_images files
    · exact absurd hh h
    · rfl
  simp [generate_pdf, hF]

/-- Indexing a range-map with a default. -/
lemma getD_map_range (f : ℕ → List (ℕ × ℕ)) {i n : ℕ} (h : i < n) :
    ((List.range n).map f).getD i [] = f i := by
  rw [List.getD_eq_getElem?_getD, List.getElem?_map, List.getElem?_range h]
  rfl

/-- Element `s` of a page's image batch `(l.drop m).take k` is element
`m + s` of the full image list. -/
lemma get_take_drop (l : List String) (m k s : ℕ)
    (hs : s < ((l.drop m).take k).length) (h2 : m + s < l.length) :
    ((l.drop m).take k).get ⟨s, hs⟩ = l.get ⟨m + s, h2⟩ := by
  rw [List.get_eq_getElem, List.get_eq_getElem, List.getElem_take, List.getElem_drop']

/-- An image index below the image count lands on a page index below
the page count `(n + cpp - 1) / cpp`. -/
lemma index_page_lt (cpp n i : ℕ) (hcpp : 0 < cpp) (hi : i < n) :
    i / cpp < (n + cpp - 1) / cpp := by
  have h1 : (i + cpp) / cpp = i / cpp + 1 := Nat.add_div_right i hcpp
  have h2 : (i + cpp) / cpp ≤ (n + cpp - 1) / cpp :=
    Nat.div_le_div_right (by omega)
  omega

/-- `(n + cpp - 1) / cpp` is the ceiling of `n / cpp`: lower bound. -/
lemma num_pages_mul_ge (cpp n : ℕ) (hcpp : 0 < cpp) (hn : 0 < n) :
    n ≤ ((n + cpp - 1) / cpp) * cpp := by
  have h1 : n + cpp - 1 = (n - 1) + cpp := by omega
  rw [h1, Nat.add_div_right _ hcpp, Nat.succ_mul]
  have h2 := Nat.div_add_mod (n - 1) cpp
  have h3 := Nat.mod_lt (n - 1) hcpp
  have h4 : (n - 1) / cpp * cpp = cpp * ((n - 1) / cpp) := Nat.mul_comm _ _
  omega

/-- `(n + cpp - 1) / cpp` is the ceiling of `n / cpp`: upper bound. -/
lemma num_pages_mul_lt (cpp n : ℕ) (hcpp : 0 < cpp) :
    ((n + cpp - 1) / cpp) * cpp < n + cpp :=
  lt_of_le_of_lt (Nat.div_mul_le_self _ _) (by omega)

/-- Discovery on a directory holding exactly `a.png`. -/
lemma find_images_apng : find_images ["a.png"] = ["a.png"] := by
  rw [find_images, show (["a.png"].filter ext_match).dedup = ["a.png"] by decide]
  exact List.mergeSort_singleton "a.png"

/-- Discovery on a directory holding exactly `cardback.png`: the back
design file is collected like any other card image. -/
lemma find_images_cardback : find_images ["cardback.png"] = ["cardback.png"] := by
  rw [find_images, show (["cardback.png"].filter ext_match).dedup = ["cardback.png"] by decide]
  exact List.mergeSort_singleton "cardback.png"

/-- C8: when no file of the directory matches a supported extension
(case-insensitively), `generate_pdf` raises its no-input error before
the output canvas is created (the `.error` result carries no pages and
models "no output file written"), and the process exits non-zero. -/
theorem C8_no_input_error (c : Config) (decode : String → Bool)
    (files : List String) (h : ∀ f ∈ files, ci_ext_match f = false) :
    generate_pdf c decode files = .error .noImages ∧
    main_exit_code c decode files = 1 := by
  have hempty : find_images files = [] := by
    have hf : files.filter ext_match = [] := by
      rw [List.filter_eq_nil_iff]
      intro a ha hmatch
      have hci := ext_match_imp_ci a hmatch
      rw [h a ha] at hci
      exact Bool.false_ne_true hci
    rw [find_images, hf]
    simp
  have hg := generate_pdf_of_empty c decode files hempty
  exact ⟨hg, by simp [main_exit_code, hg]⟩

/-- Witness for C8: a directory holding only `readme.txt`. -/
theorem C8_no_input_error_witness :
    generate_pdf layoutExampleConfig (fun _ => true) ["readme.txt"] = .error .noImages ∧
    main_exit_code layoutExampleConfig (fun _ => true) ["readme.txt"] = 1 :=
  C8_no_input_error layoutExampleConfig (fun _ => true) ["readme.txt"] (by decide)

/-- C9: a single image whose decode fails (the code's `process_image`
catches `IOError`/`OSError` and returns `None`, modelled by the
`decode` oracle answering `false`) does not abort the run: the result
is still `.ok`, the page count is computed from the image count alone,
the failing image's grid cell stays empty, and every image that does
decode is still drawn at its cell. -/
theorem C9_decode_failure_recoverable (c : Config)
    (hcols : 0 < c.grid_cols) (hrows : 0 < c.grid_rows)
    (decode : String → Bool) (files : List String)
    (i0 : ℕ) (hi0 : i0 < (find_images files).length)
    (hfail : decode ((find_images files).get ⟨i0, hi0⟩) = false) :
    ∃ pages, generate_pdf c decode files = .ok pages ∧
      pages.length = num_pages c (find_images files).length ∧
      i0 / cards_per_page c < pages.length ∧
      ((i0 % cards_per_page c) / c.grid_cols,
       (i0 % cards_per_page c) % c.grid_cols) ∉
        pages.getD (i0 / cards_per_page c) [] ∧
      (∀ j, ∀ hj : j < (find_images files).length,
        decode ((find_images files).get ⟨j, hj⟩) = true →
          ((j % cards_per_page c) / c.grid_cols,
           (j % cards_per_page c) % c.grid_cols) ∈
            pages.getD (j / cards_per_page c) []) := by
  have hcpp : 0 < cards_per_page c := Nat.mul_pos hcols hrows
  have hne : find_images files ≠ [] := by
    intro hE
    rw [hE] at hi0
    exact absurd hi0 (by simp)
  refine ⟨_, generate_pdf_of_ne c decode files hne, ?_, ?_, ?_, ?_⟩
  · simp [num_pages]
  · rw [List.length_map, List.length_range]
    simp only [num_pages]
    exact index_page_lt _ _ _ hcpp hi0
  · have hpg : i0 / cards_per_page c < num_pages c (find_images files).length := by
      simp only [num_pages]
      exact index_page_lt _ _ _ hcpp hi0
    rw [getD_map_range _ hpg]
    intro hmem
    obtain ⟨j, hj, hdec, hr, hq⟩ := (page_cells_mem c decode _ 0 _ _).mp hmem
    rw [Nat.zero_add] at hr hq
    have hj_eq : j = i0 % cards_per_page c := by
      have e1 := Nat.div_add_mod (i0 % cards_per_page c) c.grid_cols
      have e2 := Nat.div_add_mod j c.grid_cols
      rw [hr, hq] at e1
      omega
    subst hj_eq
    have hidx : i0 / cards_per_page c * cards_per_page c + i0 % cards_per_page c = i0 := by
      rw [Nat.mul_comm]
      exact Nat.div_add_mod i0 (cards_per_page c)
    have hb : i0 / cards_per_page c * cards_per_page c + i0 % cards_per_page c <
        (find_images files).length := by
      rw [hidx]; exact hi0
    have hget := get_take_drop (find_images files)
      (i0 / cards_per_page c * cards_per_page c) (cards_per_page c)
      (i0 % cards_per_page c) hj hb
    rw [show (⟨i0 / cards_per_page c * cards_per_page c + i0 % cards_per_page c, hb⟩ :
        Fin (find_images files).length) = ⟨i0, hi0⟩ from Fin.ext hidx] at hget
    rw [hget] at hdec
    rw [List.get_eq_getElem] at hfail
    rw [List.get_eq_getElem, hfail] at hdec
    exact Bool.false_ne_true hdec
  · intro j hj hdec
    have hpg : j / cards_per_page c < num_pages c (find_images files).length := by
      simp only [num_pages]
      exact index_page_lt _ _ _ hcpp hj
    rw [getD_map_range _ hpg]
    have hidx : j / cards_per_page c * cards_per_page c + j % cards_per_page c = j := by
      rw [Nat.mul_comm]
      exact Nat.div_add_mod j (cards_per_page c)
    have hmod := Nat.mod_lt j hcpp
    have hlen : j % cards_per_page c <
        ((((find_images files).drop
          (j / cards_per_page c * cards_per_page c)).take (cards_per_page c))).length := by
      simp only [List.length_take, List.length_drop]
      omega
    refine (page_cells_mem c decode _ 0 _ _).mpr
      ⟨j % cards_per_page c, hlen, ?_, by rw [Nat.zero_add], by rw [Nat.zero_add]⟩
    have hb : j / cards_per_page c * cards_per_page c + j % cards_per_page c <
        (find_images files).length := by
      rw [hidx]; exact hj
    have hget := get_take_drop (find_images files)
      (j / cards_per_page c * cards_per_page c) (cards_per_page c)
      (j % cards_per_page c) hlen hb
    rw [show (⟨j / cards_per_page c * cards_per_page c + j % cards_per_page c, hb⟩ :
        Fin (find_images files).length) = ⟨j, hj⟩ from Fin.ext hidx] at hget
    rw [hget]
    exact hdec

/-- Witness for C9: one image `a.png` whose decode fails on a 3×3
grid. -/
theorem C9_decode_failure_recoverable_witness :
    ∃ pages, generate_pdf layoutExampleConfig (fun _ => false) ["a.png"] = .ok pages ∧
      pages.length = num_pages layoutExampleConfig (find_images ["a.png"]).length ∧
      0 / cards_per_page layoutExampleConfig < pages.length ∧
      ((0 % cards_per_page layoutExampleConfig) / layoutExampleConfig.grid_cols,
       (0 % cards_per_page layoutExampleConfig) % layoutExampleConfig.grid_cols) ∉
        pages.getD (0 / cards_per_page layoutExampleConfig) [] ∧
      (∀ j, ∀ hj : j < (find_images ["a.png"]).length,
        (fun _ => false) ((find_images ["a.png"]).get ⟨j, hj⟩) = true →
          ((j % cards_per_page layoutExampleConfig) / layoutExampleConfig.grid_cols,
           (j % cards_per_page layoutExampleConfig) % layoutExampleConfig.grid_cols) ∈
            pages.getD (j / cards_per_page layoutExampleConfig) []) :=
  C9_decode_failure_recoverable layoutExampleConfig (by decide) (by decide)
    (fun _ => false) ["a.png"] 0 (by rw [find_images_apng]; decide) rfl

/-- C10: when every image fails to decode, the run still completes:
the result is `.ok` with `⌈imageCount / (cols·rows)⌉` pages (the two
product inequalities pin the length to that ceiling), every page's
cell list is empty (each page then carries only the unconditionally
drawn guide lines and markers), and the process exits 0. -/
theorem C10_all_failures_still_succeed (c : Config)
    (hcols : 0 < c.grid_cols) (hrows : 0 < c.grid_rows)
    (files : List String) (hne : find_images files ≠ []) :
    ∃ pages, generate_pdf c (fun _ => false) files = .ok pages ∧
      pages.length = num_pages c (find_images files).length ∧
      (find_images files).length ≤ pages.length * cards_per_page c ∧
      pages.length * cards_per_page c < (find_images files).length + cards_per_page c ∧
      (∀ pg ∈ pages, pg = []) ∧
      main_exit_code c (fun _ => false) files = 0 := by
  have hcpp : 0 < cards_per_page c := Nat.mul_pos hcols hrows
  have hn : 0 < (find_images files).length := List.length_pos.mpr hne
  have hg := generate_pdf_of_ne c (fun _ => false) files hne
  refine ⟨_, hg, ?_, ?_, ?_, ?_, ?_⟩
  · simp [num_pages]
  · rw [List.length_map, List.length_range]
    simp only [num_pages]
    exact num_pages_mul_ge _ _ hcpp hn
  · rw [List.length_map, List.length_range]
    simp only [num_pages]
    exact num_pages_mul_lt _ _ hcpp
  · intro pg hpg
    simp only [List.mem_map, List.mem_range] at hpg
    obtain ⟨a, _, rfl⟩ := hpg
    exact page_cells_all_fail c _ 0
  · simp [main_exit_code, hg]

/-- Witness for C10: the single image `a.png`, never decoding, on a
3×3 grid. -/
theorem C10_all_failures_still_succeed_witness :
    ∃ pages, generate_pdf layoutExampleConfig (fun _ => false) ["a.png"] = .ok pages ∧
      pages.length = num_pages layoutExampleConfig (find_images ["a.png"]).length ∧
      (find_images ["a.png"]).length ≤
        pages.length * cards_per_page layoutExampleConfig ∧
      pages.length * cards_per_page layoutExampleConfig <
        (find_images ["a.png"]).length + cards_per_page layoutExampleConfig ∧
      (∀ pg ∈ pages, pg = []) ∧
      main_exit_code layoutExampleConfig (fun _ => false) ["a.png"] = 0 :=
  C10_all_failures_still_succeed layoutExampleConfig (by decide) (by decide)
    ["a.png"] (by rw [find_images_apng]; decide)

/-- C6, counterexample: `generate_pdf` has no back-page code path at
all — a directory holding exactly the back design `cardback.png`
yields a single page on which the cardback is drawn as an ordinary
front card in cell `(0, 0)`; the claim requires a mirrored back page
after this front page, i.e. two pages. -/
theorem C6_back_page_counterexample :
    generate_pdf layoutExampleConfig (fun _ => true) ["cardback.png"] =
      .ok [[(0, 0)]] ∧
    Except.map List.length
      (generate_pdf layoutExampleConfig (fun _ => true) ["cardback.png"]) = .ok 1 := by
  have hg := generate_pdf_of_ne layoutExampleConfig (fun _ => true) ["cardback.png"]
    (by rw [find_images_cardback]; decide)
  rw [find_images_cardback] at hg
  have h1 : generate_pdf layoutExampleConfig (fun _ => true) ["cardback.png"] =
      .ok [[(0, 0)]] := by
    rw [hg]
    simp only [Except.ok.injEq]
    decide
  exact ⟨h1, by rw [h1]; rfl⟩

/-- C6 (amended): the program never emits back pages — the document
always holds exactly `⌈imageCount / (cols·rows)⌉` front card pages,
and a file named `cardback.png` is discovered and laid out like any
other card image rather than triggering an interleaved back sheet. -/
theorem C6_no_back_pages (c : Config) (decode : String → Bool)
    (files : List String) (hne : find_images files ≠ []) :
    (∃ pages, generate_pdf c decode files = .ok pages ∧
      pages.length = num_pages c (find_images files).length) ∧
    find_images ["cardback.png"] = ["cardback.png"] := by
  refine ⟨⟨_, generate_pdf_of_ne c decode files hne, ?_⟩, find_images_cardback⟩
  simp [num_pages]

/-- Witness for C6 (amended) at a directory holding `a.png`. -/
theorem C6_no_back_pages_witness :
    (∃ pages, generate_pdf layoutExampleConfig (fun _ => true) ["a.png"] = .ok pages ∧
      pages.length = num_pages layoutExampleConfig (find_images ["a.png"]).length) ∧
    find_images ["cardback.png"] = ["cardback.png"] :=
  C6_no_back_pages layoutExampleConfig (fun _ => true) ["a.png"]
    (by rw [find_images_apng]; decide)

end CardPuncher
